import Mathlib

/-!
Shallow embedding of the Chouine rules engine (`src/backend/main.py`):
card model, rule engine (trick winner, legal moves, announces), the mutable
`Game` aggregate and its state-machine operations (`leader_play`,
`follower_play`, `exchange7`), a reachability relation over those
operations, and proofs of the specified properties.

Python functions mutate a `Game` in place and signal failure by raising
`ValueError`; we model each operation as a function `Game → ... → Game ×
Option String` returning the state as left by the call (mutations made
before the raise included, exactly as in Python) together with the error
message, if any.
-/

namespace Chouine

/-- Card suits H, D, C, S (`SUITS` in `main.py`). -/
inductive Suit where
  | H | D | C | S
deriving DecidableEq, Repr

/-- Card ranks A, 10, K, Q, J, 9, 8, 7 (`RANKS` in `main.py`). -/
inductive Rank where
  | A | R10 | K | Q | J | R9 | R8 | R7
deriving DecidableEq, Repr

/-- A card is a suit plus a rank (the `{"suit": s, "rank": r}` dicts). -/
structure Card where
  suit : Suit
  rank : Rank
deriving DecidableEq, Repr

instance : Inhabited Card := ⟨⟨Suit.H, Rank.A⟩⟩

/-- The side making a move (`By = Literal["player", "opponent"]`). -/
inductive By where
  | player | opponent
deriving DecidableEq, Repr

/-- Possible game outcomes (`Literal["player", "opponent", "draw"]`). -/
inductive GWinner where
  | player | opponent | draw
deriving DecidableEq, Repr

/-- `By` value as a game winner, for the chouine immediate win. -/
def By.toGWinner : By → GWinner
  | By.player => GWinner.player
  | By.opponent => GWinner.opponent

/-- Announce types (`AnnounceType` literal in `main.py`); `noneT` is the
literal `"none"`. -/
inductive AnnounceType where
  | noneT | mariage | tierce | quarteron | quinte | chouine
deriving DecidableEq, Repr

/-- `RANKS` order, used to build `RANK_STRENGTH`. -/
def RANKS : List Rank :=
  [Rank.A, Rank.R10, Rank.K, Rank.Q, Rank.J, Rank.R9, Rank.R8, Rank.R7]

/-- `SUITS` order. -/
def SUITS : List Suit := [Suit.H, Suit.D, Suit.C, Suit.S]

/-- `RANK_STRENGTH`: index in `RANKS`; smaller = stronger. -/
def RANK_STRENGTH : Rank → Nat
  | Rank.A => 0
  | Rank.R10 => 1
  | Rank.K => 2
  | Rank.Q => 3
  | Rank.J => 4
  | Rank.R9 => 5
  | Rank.R8 => 6
  | Rank.R7 => 7

/-- `CARD_POINTS`: card point values. -/
def CARD_POINTS : Rank → Nat
  | Rank.A => 11
  | Rank.R10 => 10
  | Rank.K => 4
  | Rank.Q => 3
  | Rank.J => 2
  | Rank.R9 => 0
  | Rank.R8 => 0
  | Rank.R7 => 0

/-- `new_deck`: the 32 cards, suits in `SUITS` order, ranks in `RANKS`
order within each suit. -/
def new_deck : List Card :=
  SUITS.flatMap (fun s => RANKS.map (fun r => ⟨s, r⟩))

/-- `card_eq`: equality on suit and rank. -/
def card_eq (a b : Card) : Bool :=
  a.suit == b.suit && a.rank == b.rank

theorem card_eq_iff (a b : Card) : card_eq a b = true ↔ a = b := by
  cases a; cases b
  simp [card_eq, Card.mk.injEq]

/-- `remove_card`: remove the first card equal to `card`; `none` models
the `ValueError("Card not in hand")` raise. -/
def remove_card : List Card → Card → Option (List Card)
  | [], _ => none
  | c :: rest, card =>
      if card_eq c card then some rest
      else (remove_card rest card).map (fun r => c :: r)

/-- `has_suit`: does the hand hold a card of `suit`. -/
def has_suit (hand : List Card) (suit : Suit) : Bool :=
  hand.any (fun c => c.suit == suit)

/-- `trumps`: the trump-suit cards of a hand. -/
def trumps (hand : List Card) (trump_suit : Suit) : List Card :=
  hand.filter (fun c => c.suit == trump_suit)

/-- `overtrumps`: trump cards strictly stronger than `target_trump`. -/
def overtrumps (hand : List Card) (trump_suit : Suit) (target_trump : Card) :
    List Card :=
  hand.filter (fun c =>
    c.suit == trump_suit &&
      decide (RANK_STRENGTH c.rank < RANK_STRENGTH target_trump.rank))

/-- `trick_winner`: 0 if the leader wins, 1 if the follower wins. -/
def trick_winner (lead reply : Card) (trump_suit : Suit)
    (talon_is_not_empty : Bool) : Nat :=
  let lead_is_trump := lead.suit == trump_suit
  let reply_is_trump := reply.suit == trump_suit
  if reply_is_trump && !lead_is_trump then 1
  else if lead_is_trump && !reply_is_trump then 0
  else if reply.suit == lead.suit then
    if RANK_STRENGTH lead.rank < RANK_STRENGTH reply.rank then 0 else 1
  else if talon_is_not_empty then 0
  else 0

/-- The inputs on which `trick_winner` falls into its final
"different suits, no cut, talon empty" branch (the branch the source
comments call "illegal should be prevented"). -/
def fallback_branch (lead reply : Card) (trump_suit : Suit) : Bool :=
  !(reply.suit == trump_suit) && !(lead.suit == trump_suit) &&
    !(reply.suit == lead.suit)

/-- `compute_legal_moves`: the follower/leader legality rule of
`main.py`. -/
def compute_legal_moves (hand : List Card) (lead_card : Option Card)
    (trump_suit : Suit) (talon_is_not_empty : Bool) : List Card :=
  match lead_card with
  | none => hand
  | some lc =>
    if talon_is_not_empty then hand
    else
      let lead_suit := lc.suit
      if has_suit hand lead_suit then
        hand.filter (fun c => c.suit == lead_suit)
      else
        let t := trumps hand trump_suit
        if t ≠ [] then
          if lead_suit == trump_suit then
            let ot := overtrumps hand trump_suit lc
            if ot ≠ [] then ot else t
          else t
        else hand

/-- `is_brisque`: rank is A or 10. -/
def is_brisque (card : Card) : Bool :=
  card.rank == Rank.A || card.rank == Rank.R10

/-- `count_brisques`. -/
def count_brisques (hand : List Card) : Nat :=
  (hand.filter (fun c => is_brisque c)).length

/-- `has_mariage`: K and Q of `suit` in hand. -/
def has_mariage (hand : List Card) (suit : Suit) : Bool :=
  (hand.any (fun c => c.suit == suit && c.rank == Rank.K)) &&
  (hand.any (fun c => c.suit == suit && c.rank == Rank.Q))

/-- `has_tierce`: K, Q, J of `suit` in hand. -/
def has_tierce (hand : List Card) (suit : Suit) : Bool :=
  (hand.any (fun c => c.suit == suit && c.rank == Rank.K)) &&
  (hand.any (fun c => c.suit == suit && c.rank == Rank.Q)) &&
  (hand.any (fun c => c.suit == suit && c.rank == Rank.J))

/-- `has_quarteron`: A, K, Q, J of `suit` in hand. -/
def has_quarteron (hand : List Card) (suit : Suit) : Bool :=
  (hand.any (fun c => c.suit == suit && c.rank == Rank.A)) &&
  (hand.any (fun c => c.suit == suit && c.rank == Rank.K)) &&
  (hand.any (fun c => c.suit == suit && c.rank == Rank.Q)) &&
  (hand.any (fun c => c.suit == suit && c.rank == Rank.J))

/-- `has_chouine`: A, 10, K, Q, J of `suit` in hand. -/
def has_chouine (hand : List Card) (suit : Suit) : Bool :=
  (hand.any (fun c => c.suit == suit && c.rank == Rank.A)) &&
  (hand.any (fun c => c.suit == suit && c.rank == Rank.R10)) &&
  (hand.any (fun c => c.suit == suit && c.rank == Rank.K)) &&
  (hand.any (fun c => c.suit == suit && c.rank == Rank.Q)) &&
  (hand.any (fun c => c.suit == suit && c.rank == Rank.J))

/-- `ANNOUNCE_POINTS` plus the `announce_points` lookup: `none` and
`chouine` give 0; `quinte` gives 50 regardless; the others double in the
trump suit. -/
def announce_points (ann_type : AnnounceType) (suit : Option Suit)
    (trump_suit : Suit) : Nat :=
  match ann_type with
  | AnnounceType.noneT => 0
  | AnnounceType.chouine => 0
  | AnnounceType.quinte =>
      match suit with
      | some s => if s = trump_suit then 50 else 50
      | none => 50
  | AnnounceType.mariage =>
      match suit with
      | some s => if s = trump_suit then 40 else 20
      | none => 20
  | AnnounceType.tierce =>
      match suit with
      | some s => if s = trump_suit then 60 else 30
      | none => 30
  | AnnounceType.quarteron =>
      match suit with
      | some s => if s = trump_suit then 80 else 40
      | none => 40

/-- `validate_announce`. -/
def validate_announce (hand : List Card) (ann_type : AnnounceType)
    (ann_suit : Option Suit) : Bool :=
  match ann_type with
  | AnnounceType.noneT => true
  | AnnounceType.quinte => decide (count_brisques hand ≥ 5)
  | _ =>
    match ann_suit with
    | none => false
    | some s =>
      match ann_type with
      | AnnounceType.mariage => has_mariage hand s
      | AnnounceType.tierce => has_tierce hand s
      | AnnounceType.quarteron => has_quarteron hand s
      | AnnounceType.chouine => has_chouine hand s
      | _ => false

/-- `is_seven_of_trump`. -/
def is_seven_of_trump (card : Card) (trump_suit : Suit) : Bool :=
  card.suit == trump_suit && card.rank == Rank.R7

/-- Suit code letters, for announce keys. -/
def Suit.code : Suit → String
  | Suit.H => "H"
  | Suit.D => "D"
  | Suit.C => "C"
  | Suit.S => "S"

/-- Announce type names, for announce keys. -/
def AnnounceType.code : AnnounceType → String
  | AnnounceType.noneT => "none"
  | AnnounceType.mariage => "mariage"
  | AnnounceType.tierce => "tierce"
  | AnnounceType.quarteron => "quarteron"
  | AnnounceType.quinte => "quinte"
  | AnnounceType.chouine => "chouine"

/-- `announce_key`: unique key preventing re-announcing. -/
def announce_key (ann_type : AnnounceType) (suit : Option Suit) : String :=
  if ann_type = AnnounceType.quinte then "quinte"
  else
    match suit with
    | none => ann_type.code ++ ":?"
    | some s => ann_type.code ++ ":" ++ s.code

/-- The `last_announce` record (for UI feedback). -/
structure LastAnnounce where
  a_by : By
  a_type : AnnounceType
  a_suit : Option Suit
deriving DecidableEq, Repr

/-- The `last_trick` summary record. -/
structure LastTrick where
  lead_by : By
  lead_card : Card
  reply_by : By
  reply_card : Card
  t_winner : By
  talon_count : Nat
deriving DecidableEq, Repr

/-- The `Game` dataclass of `main.py` (the random `game_id` string is
omitted: no operation reads it). -/
structure Game where
  trump_card : Card
  trump_suit : Suit
  talon : List Card
  player_hand : List Card
  opponent_hand : List Card
  leader : Nat
  current_lead : Option Card := none
  current_lead_by : Option By := none
  turnup_in_stock : Bool := true
  player_tricks : List (List Card) := []
  opponent_tricks : List (List Card) := []
  last_trick_winner : Option By := none
  player_ann_points : Nat := 0
  opponent_ann_points : Nat := 0
  announced_player : List String := []
  announced_opponent : List String := []
  exchange7_done : Bool := false
  is_over : Bool := false
  winner : Option GWinner := none
  last_trick : Option LastTrick := none
  last_announce : Option LastAnnounce := none
deriving DecidableEq, Repr

/-- `draw_from_stock`: pop the talon front, else take the reserved
turnup (clearing its flag), else nothing. -/
def draw_from_stock (g : Game) : Option Card × Game :=
  match g.talon with
  | c :: rest => (some c, { g with talon := rest })
  | [] =>
      if g.turnup_in_stock then
        (some g.trump_card, { g with turnup_in_stock := false })
      else (none, g)

/-- `talon_not_empty`. -/
def talon_not_empty (g : Game) : Bool :=
  decide (0 < g.talon.length)

/-- `au_sept_required`: talon has exactly 2 cards and the exchange has
not happened. -/
def au_sept_required (g : Game) : Bool :=
  (g.talon.length == 2) && !g.exchange7_done

/-- `new_game`, parametrized by the shuffled deck: 5 cards each, card 10
is the turnup, cards 11.. are the talon; player leads. -/
def new_game (deck : List Card) : Game :=
  { trump_card := deck.getD 10 default
    trump_suit := (deck.getD 10 default).suit
    talon := deck.drop 11
    player_hand := deck.take 5
    opponent_hand := (deck.drop 5).take 5
    leader := 0 }

/-- `compute_cards_points`: card points of a trick pile. -/
def compute_cards_points (tricks : List (List Card)) : Nat :=
  (tricks.flatMap id).foldr (fun c acc => CARD_POINTS c.rank + acc) 0

/-- One side's entry in the `scores_so_far` dict. -/
structure SideScore where
  cards : Nat
  announces : Nat
  total : Nat
deriving DecidableEq, Repr

/-- The `scores_so_far` dict: running totals, no last trick bonus. -/
structure Scores where
  player : SideScore
  opponent : SideScore
deriving DecidableEq, Repr

/-- `scores_so_far`. -/
def scores_so_far (g : Game) : Scores :=
  { player :=
      { cards := compute_cards_points g.player_tricks
        announces := g.player_ann_points
        total := compute_cards_points g.player_tricks + g.player_ann_points }
    opponent :=
      { cards := compute_cards_points g.opponent_tricks
        announces := g.opponent_ann_points
        total := compute_cards_points g.opponent_tricks + g.opponent_ann_points } }

/-- One side's entry in the `final_scores` dict. -/
structure FinalSideScore where
  cards : Nat
  announces : Nat
  dix_de_der : Nat
  total : Nat
deriving DecidableEq, Repr

/-- The `final_scores` dict: adds the 10-point dix de der to the side
that won the last trick. -/
structure FinalScores where
  player : FinalSideScore
  opponent : FinalSideScore
deriving DecidableEq, Repr

/-- `final_scores`. -/
def final_scores (g : Game) : FinalScores :=
  let p := compute_cards_points g.player_tricks + g.player_ann_points +
    (if g.last_trick_winner = some By.player then 10 else 0)
  let o := compute_cards_points g.opponent_tricks + g.opponent_ann_points +
    (if g.last_trick_winner = some By.opponent then 10 else 0)
  { player :=
      { cards := compute_cards_points g.player_tricks
        announces := g.player_ann_points
        dix_de_der := if g.last_trick_winner = some By.player then 10 else 0
        total := p }
    opponent :=
      { cards := compute_cards_points g.opponent_tricks
        announces := g.opponent_ann_points
        dix_de_der := if g.last_trick_winner = some By.opponent then 10 else 0
        total := o } }

/-- `maybe_finish_game`: end the game once both hands are empty with no
trick pending; the winner is decided on final totals. -/
def maybe_finish_game (g : Game) : Game :=
  if g.is_over then g
  else if g.current_lead ≠ none then g
  else if g.player_hand.length ≠ 0 ∨ g.opponent_hand.length ≠ 0 then g
  else
    let fs := final_scores g
    { g with
        is_over := true
        winner :=
          if fs.player.total > fs.opponent.total then some GWinner.player
          else if fs.opponent.total > fs.player.total then some GWinner.opponent
          else some GWinner.draw }

/-- `apply_announce`: validate and record an announce against the
pre-play hand snapshot; a `chouine` announce ends the game at once.
Mirrors the Python raise points: every error is raised before any
mutation of this function. -/
def apply_announce (g : Game) (side : By) (ann_type : AnnounceType)
    (ann_suit : Option Suit) (shown : Bool) (hand_snapshot : List Card) :
    Game × Option String :=
  if ann_type = AnnounceType.noneT then (g, none)
  else if !shown then (g, some "announce must be shown")
  else if !validate_announce hand_snapshot ann_type ann_suit then
    (g, some "invalid announce for your hand")
  else
    let key := announce_key ann_type ann_suit
    let aset := if side = By.player then g.announced_player
      else g.announced_opponent
    if key ∈ aset then (g, some "announce already made earlier")
    else
      let g1 :=
        if side = By.player then
          { g with announced_player := key :: g.announced_player }
        else
          { g with announced_opponent := key :: g.announced_opponent }
      let g2 := { g1 with last_announce := some ⟨side, ann_type, ann_suit⟩ }
      if ann_type = AnnounceType.chouine then
        ({ g2 with is_over := true, winner := some side.toGWinner }, none)
      else
        let pts := announce_points ann_type ann_suit g.trump_suit
        if side = By.player then
          ({ g2 with player_ann_points := g2.player_ann_points + pts }, none)
        else
          ({ g2 with opponent_ann_points := g2.opponent_ann_points + pts }, none)

/-- The draw block of `resolve_trick`: while talon or turnup remain, the
trick winner draws first, then the loser; drawn cards join the
respective hands. -/
def draw_round (g : Game) (w : By) : Game :=
  if (decide (0 < g.talon.length) || g.turnup_in_stock) = true then
    let r1 := draw_from_stock g
    let r2 := draw_from_stock r1.2
    let pc : Option Card := if w = By.player then r1.1 else r2.1
    let oc : Option Card := if w = By.player then r2.1 else r1.1
    let g3 :=
      match pc with
      | some c => { r2.2 with player_hand := r2.2.player_hand ++ [c] }
      | none => r2.2
    match oc with
    | some c => { g3 with opponent_hand := g3.opponent_hand ++ [c] }
    | none => g3
  else g

/-- The pile append of `resolve_trick`: the two trick cards go to the
winner's pile. -/
def add_trick_to_pile (g : Game) (w : By) (cards : List Card) : Game :=
  if w = By.player then
    { g with player_tricks := g.player_tricks ++ [cards] }
  else
    { g with opponent_tricks := g.opponent_tricks ++ [cards] }

/-- `resolve_trick`: decide the winner, move the two cards to the
winner's pile, update the leader, draw, record the trick summary, close
the trick and check the terminal condition. -/
def resolve_trick (g : Game) (lead_by : By) (lead_card : Card)
    (follow_by : By) (follow_card : Card) : Game :=
  let rel := trick_winner lead_card follow_card g.trump_suit (talon_not_empty g)
  let w : By := if rel = 0 then lead_by else follow_by
  let g1 := add_trick_to_pile g w [lead_card, follow_card]
  let g2 := { g1 with
    last_trick_winner := some w
    leader := if w = By.player then 0 else 1 }
  let g3 := draw_round g2 w
  let g4 := { g3 with
    last_trick := some ⟨lead_by, lead_card, follow_by, follow_card, w,
      g3.talon.length⟩
    current_lead := none
    current_lead_by := none }
  maybe_finish_game g4

/-- `leader_play`: open a trick. The announce is applied (and possibly
committed) before the played card's hand membership is checked, exactly
as in the Python source. -/
def leader_play (g : Game) (side : By) (card : Card) (au_sept_flag : Bool)
    (ann_type : AnnounceType) (ann_suit : Option Suit) (shown : Bool) :
    Game × Option String :=
  if g.is_over then (g, some "game over")
  else if g.current_lead ≠ none then (g, some "trick already started")
  else if (g.leader = 0 ∧ side ≠ By.player) ∨
      (g.leader = 1 ∧ side ≠ By.opponent) then (g, some "not leader")
  else if au_sept_required g = true ∧ au_sept_flag = false then
    (g, some "au sept required")
  else
    let hand_snapshot :=
      if side = By.player then g.player_hand else g.opponent_hand
    match apply_announce g side ann_type ann_suit shown hand_snapshot with
    | (g1, some e) => (g1, some e)
    | (g1, none) =>
      if g1.is_over then (g1, none)
      else
        match remove_card
            (if side = By.player then g1.player_hand else g1.opponent_hand)
            card with
        | none => (g1, some "Card not in hand")
        | some h =>
          let g2 :=
            if side = By.player then { g1 with player_hand := h }
            else { g1 with opponent_hand := h }
          ({ g2 with current_lead := some card, current_lead_by := some side },
            none)

/-- `follower_play`: answer the lead (legality is enforced only once the
talon is empty), then resolve the trick. As in the source, the announce
is applied before the hand-membership check of the played card. -/
def follower_play (g : Game) (side : By) (card : Card)
    (ann_type : AnnounceType) (ann_suit : Option Suit) (shown : Bool) :
    Game × Option String :=
  if g.is_over then (g, some "game over")
  else if g.current_lead = none ∨ g.current_lead_by = none then
    (g, some "no lead")
  else if g.current_lead_by = some side then (g, some "leader cannot follow")
  else if talon_not_empty g = false ∧
      ¬ (compute_legal_moves
          (if side = By.player then g.player_hand else g.opponent_hand)
          g.current_lead g.trump_suit false).any (fun c => card_eq c card) then
    (g, some "illegal move")
  else
    let hand_snapshot :=
      if side = By.player then g.player_hand else g.opponent_hand
    match apply_announce g side ann_type ann_suit shown hand_snapshot with
    | (g1, some e) => (g1, some e)
    | (g1, none) =>
      if g1.is_over then (g1, none)
      else
        match remove_card
            (if side = By.player then g1.player_hand else g1.opponent_hand)
            card with
        | none => (g1, some "Card not in hand")
        | some h =>
          let g2 :=
            if side = By.player then { g1 with player_hand := h }
            else { g1 with opponent_hand := h }
          match g2.current_lead_by, g2.current_lead with
          | some lb, some lc => (resolve_trick g2 lb lc side card, none)
          | _, _ => (g2, some "no lead")

/-- Index of the first trump seven in the hand (the `enumerate` search
loop of `exchange7`). -/
def find_seven : List Card → Suit → Option Nat
  | [], _ => none
  | c :: rest, ts =>
      if is_seven_of_trump c ts then some 0
      else (find_seven rest ts).map (fun i => i + 1)

/-- `exchange7`: swap the player's trump seven with the reserved
trump/turnup card, at most once, while the talon is non-empty. -/
def exchange7 (g : Game) : Game × Option String :=
  if g.is_over then (g, some "game over")
  else if g.exchange7_done then (g, some "exchange already done")
  else if talon_not_empty g = false then
    (g, some "cannot exchange when talon empty")
  else
    match find_seven g.player_hand g.trump_suit with
    | none => (g, some "you do not have the 7 of trump")
    | some i =>
      let seven := g.player_hand.getD i default
      ({ g with
          player_hand := g.player_hand.set i g.trump_card
          trump_card := seven
          exchange7_done := true }, none)

/-- One engine call, successful or failed: the server keeps whatever
state the call leaves behind (Python mutates in place and the API layer
catches the `ValueError`), so every outcome is a step. The API layer
also re-runs `maybe_finish_game` after a failure. -/
inductive Step : Game → Game → Prop where
  | lead (g : Game) (side : By) (card : Card) (flag : Bool)
      (t : AnnounceType) (s : Option Suit) (shown : Bool) :
      Step g (leader_play g side card flag t s shown).1
  | follow (g : Game) (side : By) (card : Card)
      (t : AnnounceType) (s : Option Suit) (shown : Bool) :
      Step g (follower_play g side card t s shown).1
  | exchange (g : Game) : Step g (exchange7 g).1
  | finish (g : Game) : Step g (maybe_finish_game g)

/-- States reachable from a freshly dealt game (any shuffle) through
engine calls. -/
inductive Reachable : Game → Prop where
  | init (deck : List Card) (h : deck.Perm new_deck) : Reachable (new_game deck)
  | step (g g' : Game) (hg : Reachable g) (hs : Step g g') : Reachable g'

/-! ### Card-conservation and stock invariants -/

/-- The card held by the in-progress lead, as a multiset. -/
def leadZone : Option Card → Multiset Card
  | some c => {c}
  | none => 0

/-- The card zones named by the specification: hands, talon, unclaimed
turnup, trick piles — the in-progress lead is *not* among them. -/
def zones (g : Game) : Multiset Card :=
  (g.player_hand : Multiset Card) + (g.opponent_hand : Multiset Card) +
  (g.talon : Multiset Card) +
  (if g.turnup_in_stock then {g.trump_card} else 0) +
  ((g.player_tricks.flatMap id : List Card) : Multiset Card) +
  ((g.opponent_tricks.flatMap id : List Card) : Multiset Card)

/-- All card zones including the in-progress lead card. -/
def zonesFull (g : Game) : Multiset Card := zones g + leadZone g.current_lead

/-- The full deck as a multiset. -/
def deckM : Multiset Card := (new_deck : Multiset Card)

/-- Stock bookkeeping invariant: while the turnup is reserved the talon
has odd length (21 initially, two drawn per trick, the turnup taken
together with the last talon card), and once the turnup is gone the
talon is empty. -/
def StockInv (g : Game) : Prop :=
  (g.turnup_in_stock = true → g.talon.length % 2 = 1) ∧
  (g.turnup_in_stock = false → g.talon = [])

/-- The inductive invariant: conservation of the 32 cards over all
zones (lead included) plus the stock bookkeeping. -/
def Inv (g : Game) : Prop := zonesFull g = deckM ∧ StockInv g

/-! ### Helper lemmas -/

theorem remove_card_multiset {h : List Card} {c : Card} {h' : List Card}
    (hr : remove_card h c = some h') :
    (h : Multiset Card) = c ::ₘ (h' : Multiset Card) := by
  induction h generalizing h' with
  | nil => simp [remove_card] at hr
  | cons a rest ih =>
    by_cases hc : card_eq a c = true
    · have ha : a = c := (card_eq_iff a c).mp hc
      simp [remove_card, hc] at hr
      subst ha hr
      rfl
    · simp [remove_card, hc] at hr
      rcases hr with ⟨r, hrec, hcons⟩
      subst hcons
      have := ih hrec
      calc ((a :: rest : List Card) : Multiset Card)
          = a ::ₘ (rest : Multiset Card) := rfl
        _ = a ::ₘ (c ::ₘ (r : Multiset Card)) := by rw [this]
        _ = c ::ₘ (a ::ₘ (r : Multiset Card)) := Multiset.cons_swap a c _
        _ = c ::ₘ ((a :: r : List Card) : Multiset Card) := rfl

theorem set_multiset (l : List Card) (i : Nat) (y : Card)
    (hi : i < l.length) :
    ((l.set i y : List Card) : Multiset Card) + {l.getD i default} =
      (l : Multiset Card) + {y} := by
  induction l generalizing i with
  | nil => simp at hi
  | cons a rest ih =>
    cases i with
    | zero =>
      show ((y :: rest : List Card) : Multiset Card) + {a} = _
      simp only [← Multiset.cons_coe]
      rw [add_comm, add_comm (a ::ₘ (rest : Multiset Card))]
      simp only [Multiset.singleton_add, Multiset.cons_swap]
    | succ j =>
      have hj : j < rest.length := by simpa using hi
      have := ih j hj
      show ((a :: rest.set j y : List Card) : Multiset Card) + {rest.getD j default} = _
      simp only [← Multiset.cons_coe]
      rw [Multiset.cons_add, Multiset.cons_add, this]

theorem find_seven_spec {l : List Card} {ts : Suit} {i : Nat}
    (hf : find_seven l ts = some i) :
    i < l.length ∧ is_seven_of_trump (l.getD i default) ts = true := by
  induction l generalizing i with
  | nil => simp [find_seven] at hf
  | cons a rest ih =>
    by_cases hc : is_seven_of_trump a ts = true
    · simp [find_seven, hc] at hf
      subst hf
      simpa using hc
    · simp [find_seven, hc] at hf
      rcases hf with ⟨j, hj, hji⟩
      subst hji
      have := ih hj
      constructor
      · simpa using this.1
      · simpa using this.2

theorem trumps_eq_nil_iff (hand : List Card) (ts : Suit) :
    trumps hand ts = [] ↔ has_suit hand ts = false := by
  simp [trumps, has_suit, List.filter_eq_nil_iff, List.any_eq_false]

/-- `apply_announce` only touches the announce bookkeeping and the
terminal flags: every card zone and turn field is unchanged. -/
theorem apply_announce_frame (g : Game) (side : By) (t : AnnounceType)
    (s : Option Suit) (shown : Bool) (snap : List Card) :
    (apply_announce g side t s shown snap).1.player_hand = g.player_hand ∧
    (apply_announce g side t s shown snap).1.opponent_hand = g.opponent_hand ∧
    (apply_announce g side t s shown snap).1.talon = g.talon ∧
    (apply_announce g side t s shown snap).1.turnup_in_stock = g.turnup_in_stock ∧
    (apply_announce g side t s shown snap).1.trump_card = g.trump_card ∧
    (apply_announce g side t s shown snap).1.trump_suit = g.trump_suit ∧
    (apply_announce g side t s shown snap).1.player_tricks = g.player_tricks ∧
    (apply_announce g side t s shown snap).1.opponent_tricks = g.opponent_tricks ∧
    (apply_announce g side t s shown snap).1.current_lead = g.current_lead ∧
    (apply_announce g side t s shown snap).1.current_lead_by = g.current_lead_by ∧
    (apply_announce g side t s shown snap).1.leader = g.leader ∧
    (apply_announce g side t s shown snap).1.exchange7_done = g.exchange7_done ∧
    (apply_announce g side t s shown snap).1.last_trick_winner = g.last_trick_winner := by
  unfold apply_announce
  repeat' split
  all_goals (try simp)
  all_goals (split <;> simp)

/-- Two states with the same card-zone fields have the same zones. -/
theorem zonesFull_eq_of_fields {g g' : Game}
    (h1 : g'.player_hand = g.player_hand)
    (h2 : g'.opponent_hand = g.opponent_hand)
    (h3 : g'.talon = g.talon)
    (h4 : g'.turnup_in_stock = g.turnup_in_stock)
    (h5 : g'.trump_card = g.trump_card)
    (h6 : g'.player_tricks = g.player_tricks)
    (h7 : g'.opponent_tricks = g.opponent_tricks)
    (h8 : g'.current_lead = g.current_lead) :
    zonesFull g' = zonesFull g := by
  simp [zonesFull, zones, h1, h2, h3, h4, h5, h6, h7, h8]

/-- Two states with the same talon and turnup flag share `StockInv`. -/
theorem stockInv_iff_of_fields {g g' : Game}
    (h3 : g'.talon = g.talon)
    (h4 : g'.turnup_in_stock = g.turnup_in_stock) :
    StockInv g' ↔ StockInv g := by
  simp [StockInv, h3, h4]

/-- `apply_announce` preserves the conservation and stock invariants. -/
theorem apply_announce_inv (g : Game) (side : By) (t : AnnounceType)
    (s : Option Suit) (shown : Bool) (snap : List Card) :
    zonesFull (apply_announce g side t s shown snap).1 = zonesFull g ∧
    (StockInv (apply_announce g side t s shown snap).1 ↔ StockInv g) := by
  have h := apply_announce_frame g side t s shown snap
  exact ⟨zonesFull_eq_of_fields h.1 h.2.1 h.2.2.1 h.2.2.2.1 h.2.2.2.2.1
      h.2.2.2.2.2.2.1 h.2.2.2.2.2.2.2.1 h.2.2.2.2.2.2.2.2.1,
    stockInv_iff_of_fields h.2.2.1 h.2.2.2.1⟩

/-- `maybe_finish_game` only sets the terminal flags. -/
theorem maybe_finish_frame (g : Game) :
    (maybe_finish_game g).player_hand = g.player_hand ∧
    (maybe_finish_game g).opponent_hand = g.opponent_hand ∧
    (maybe_finish_game g).talon = g.talon ∧
    (maybe_finish_game g).turnup_in_stock = g.turnup_in_stock ∧
    (maybe_finish_game g).trump_card = g.trump_card ∧
    (maybe_finish_game g).trump_suit = g.trump_suit ∧
    (maybe_finish_game g).player_tricks = g.player_tricks ∧
    (maybe_finish_game g).opponent_tricks = g.opponent_tricks ∧
    (maybe_finish_game g).current_lead = g.current_lead ∧
    (maybe_finish_game g).current_lead_by = g.current_lead_by ∧
    (maybe_finish_game g).last_trick_winner = g.last_trick_winner ∧
    (maybe_finish_game g).player_ann_points = g.player_ann_points ∧
    (maybe_finish_game g).opponent_ann_points = g.opponent_ann_points := by
  unfold maybe_finish_game
  repeat' split
  all_goals simp

/-- The draw block changes only the talon, the turnup flag and the two
hands. -/
theorem draw_round_frame (g : Game) (w : By) :
    (draw_round g w).player_tricks = g.player_tricks ∧
    (draw_round g w).opponent_tricks = g.opponent_tricks ∧
    (draw_round g w).current_lead = g.current_lead ∧
    (draw_round g w).current_lead_by = g.current_lead_by ∧
    (draw_round g w).last_trick_winner = g.last_trick_winner ∧
    (draw_round g w).trump_card = g.trump_card ∧
    (draw_round g w).trump_suit = g.trump_suit ∧
    (draw_round g w).leader = g.leader ∧
    (draw_round g w).is_over = g.is_over ∧
    (draw_round g w).player_ann_points = g.player_ann_points ∧
    (draw_round g w).opponent_ann_points = g.opponent_ann_points := by
  rcases htal : g.talon with _ | ⟨a, _ | ⟨b, t⟩⟩ <;>
    by_cases htis : g.turnup_in_stock = true <;>
    by_cases hw : w = By.player <;>
    simp [draw_round, draw_from_stock, htal, htis, hw]

/-- The draw block conserves the cards (drawn cards move from the stock
zones into the hands) and preserves the stock bookkeeping. -/
theorem draw_round_inv (g : Game) (w : By) (h2 : g.turnup_in_stock = true →
    g.talon.length % 2 = 1) (h3 : g.turnup_in_stock = false → g.talon = []) :
    zonesFull (draw_round g w) = zonesFull g ∧ StockInv (draw_round g w) := by
  rcases htal : g.talon with _ | ⟨a, rest⟩
  · rcases htis : g.turnup_in_stock
    · have hdr : draw_round g w = g := by
        unfold draw_round
        simp [htal, htis]
      rw [hdr]
      exact ⟨rfl, fun h => absurd (htis.symm.trans h) (by simp),
        fun _ => htal⟩
    · exact absurd (h2 htis) (by simp [htal])
  · have htis : g.turnup_in_stock = true := by
      rcases hb : g.turnup_in_stock
      · rw [h3 hb] at htal; exact absurd htal (by simp)
      · rfl
    rcases rest with _ | ⟨b, t⟩
    · -- one talon card left: the winner takes it, the loser takes the turnup
      have hdr : draw_round g w =
          (if w = By.player then
            { g with
                talon := []
                turnup_in_stock := false
                player_hand := g.player_hand ++ [a]
                opponent_hand := g.opponent_hand ++ [g.trump_card] }
          else
            { g with
                talon := []
                turnup_in_stock := false
                player_hand := g.player_hand ++ [g.trump_card]
                opponent_hand := g.opponent_hand ++ [a] }) := by
        unfold draw_round draw_from_stock
        by_cases hw : w = By.player <;> simp [htal, htis, hw]
      rw [hdr]
      constructor
      · by_cases hw : w = By.player <;>
          simp [hw, zonesFull, zones, htal, htis,
            ← Multiset.coe_add, Multiset.coe_singleton] <;> abel
      · by_cases hw : w = By.player <;> simp [hw, StockInv]
    · -- two or more talon cards: both draws come from the talon
      have hdr : draw_round g w =
          (if w = By.player then
            { g with
                talon := t
                player_hand := g.player_hand ++ [a]
                opponent_hand := g.opponent_hand ++ [b] }
          else
            { g with
                talon := t
                player_hand := g.player_hand ++ [b]
                opponent_hand := g.opponent_hand ++ [a] }) := by
        unfold draw_round draw_from_stock
        by_cases hw : w = By.player <;> simp [htal, htis, hw]
      have hlen : t.length % 2 = 1 := by
        have := h2 htis
        rw [htal] at this
        simp at this
        omega
      rw [hdr]
      constructor
      · by_cases hw : w = By.player <;>
          simp [hw, zonesFull, zones, htal, htis, ← Multiset.coe_add,
            Multiset.coe_singleton, ← Multiset.cons_coe,
            ← Multiset.singleton_add] <;>
          abel
      · by_cases hw : w = By.player <;> simp [hw, StockInv, htis, hlen]

/-- Appending a completed trick to a pile adds exactly its cards to the
zones and leaves every other field unchanged. -/
theorem add_trick_zones (g : Game) (w : By) (cards : List Card) :
    zones (add_trick_to_pile g w cards) = zones g + (cards : Multiset Card) ∧
    (add_trick_to_pile g w cards).current_lead = g.current_lead ∧
    (add_trick_to_pile g w cards).talon = g.talon ∧
    (add_trick_to_pile g w cards).turnup_in_stock = g.turnup_in_stock ∧
    (add_trick_to_pile g w cards).trump_suit = g.trump_suit ∧
    (add_trick_to_pile g w cards).player_hand = g.player_hand ∧
    (add_trick_to_pile g w cards).opponent_hand = g.opponent_hand := by
  by_cases hw : w = By.player <;>
    simp [add_trick_to_pile, hw, zones, ← Multiset.coe_add] <;> abel

/-- `resolve_trick` consumes the pending lead and the follower's card:
it grows the zones by exactly the follower card (the lead card moves
from the lead slot to a pile), and it preserves the stock invariant. -/
theorem resolve_trick_inv (g : Game) (lb : By) (lc : Card) (fb : By)
    (fc : Card) (hlead : g.current_lead = some lc) (hs : StockInv g) :
    zonesFull (resolve_trick g lb lc fb fc) = zonesFull g + {fc} ∧
    StockInv (resolve_trick g lb lc fb fc) := by
  simp only [resolve_trick]
  generalize (if trick_winner lc fc g.trump_suit (talon_not_empty g) = 0
    then lb else fb) = w
  have h1 := add_trick_zones g w [lc, fc]
  set g1 := add_trick_to_pile g w [lc, fc] with hg1
  set g2 : Game := { g1 with
    last_trick_winner := some w
    leader := if w = By.player then 0 else 1 } with hg2
  have h2z : zones g2 = zones g1 ∧ g2.current_lead = g1.current_lead ∧
      g2.talon = g1.talon ∧ g2.turnup_in_stock = g1.turnup_in_stock := by
    refine ⟨?_, rfl, rfl, rfl⟩
    simp [zones, hg2]
  have hs2 : StockInv g2 := by
    rcases hs with ⟨ha, hb⟩
    constructor
    · intro ht
      rw [h2z.2.2.1, h1.2.2.1]
      exact ha (by rw [← h1.2.2.2.1, ← h2z.2.2.2]; exact ht)
    · intro ht
      rw [h2z.2.2.1, h1.2.2.1]
      exact hb (by rw [← h1.2.2.2.1, ← h2z.2.2.2]; exact ht)
  have h3 := draw_round_inv g2 w hs2.1 hs2.2
  have h3f := draw_round_frame g2 w
  set g3 := draw_round g2 w with hg3
  set g4 : Game := { g3 with
    last_trick := some ⟨lb, lc, fb, fc, w, g3.talon.length⟩
    current_lead := none
    current_lead_by := none } with hg4
  have h4z : zones g4 = zones g3 := by
    simp [zones, hg4]
  have h4s : StockInv g4 := by
    rcases h3.2 with ⟨ha, hb⟩
    exact ⟨fun ht => ha ht, fun ht => hb ht⟩
  have hmf := maybe_finish_frame g4
  have hzf : zonesFull (maybe_finish_game g4) = zonesFull g4 :=
    zonesFull_eq_of_fields hmf.1 hmf.2.1 hmf.2.2.1 hmf.2.2.2.1 hmf.2.2.2.2.1
      hmf.2.2.2.2.2.2.1 hmf.2.2.2.2.2.2.2.1 hmf.2.2.2.2.2.2.2.2.1
  constructor
  · rw [hzf]
    have : zonesFull g4 = zones g3 := by
      simp [zonesFull, h4z, hg4, leadZone]
    rw [this]
    have hz3 : zones g3 = zones g2 := by
      have := h3.1
      simp only [zonesFull] at this
      rw [h3f.2.2.1] at this
      exact add_right_cancel this
    rw [hz3, h2z.1, h1.1]
    simp [zonesFull, hlead, leadZone, ← Multiset.coe_add,
      Multiset.coe_singleton]
    abel
  · exact (stockInv_iff_of_fields hmf.2.2.1 hmf.2.2.2.1).mpr h4s

/-- The trick winner recorded by `resolve_trick` is the one computed by
`trick_winner`. -/
theorem resolve_trick_last_winner (g : Game) (lb : By) (lc : Card)
    (fb : By) (fc : Card) :
    (resolve_trick g lb lc fb fc).last_trick_winner =
      some (if trick_winner lc fc g.trump_suit (talon_not_empty g) = 0
        then lb else fb) := by
  simp only [resolve_trick]
  generalize (if trick_winner lc fc g.trump_suit (talon_not_empty g) = 0
    then lb else fb) = w
  set g2 : Game := { add_trick_to_pile g w [lc, fc] with
    last_trick_winner := some w
    leader := if w = By.player then 0 else 1 } with hg2
  rw [(maybe_finish_frame _).2.2.2.2.2.2.2.2.2.2.1]
  show (draw_round g2 w).last_trick_winner = some w
  rw [(draw_round_frame g2 w).2.2.2.2.1]

/-- A successful or failed announce leaves the invariant intact. -/
theorem apply_announce_inv_of (g : Game) (side : By) (t : AnnounceType)
    (s : Option Suit) (shown : Bool) (snap : List Card) (h : Inv g) :
    Inv (apply_announce g side t s shown snap).1 := by
  have hai := apply_announce_inv g side t s shown snap
  exact ⟨hai.1.trans h.1, hai.2.mpr h.2⟩

/-- Removing a card from the player's hand and placing it as the
current lead preserves the invariant, provided no lead was pending. -/
theorem place_lead_inv_player (g1 : Game) (side : By) (card : Card)
    (hrem : List Card) (h1 : Inv g1) (hlead : g1.current_lead = none)
    (hr : remove_card g1.player_hand card = some hrem) :
    Inv { g1 with
          player_hand := hrem
          current_lead := some card
          current_lead_by := some side } := by
  rcases h1 with ⟨hz, hs⟩
  refine ⟨?_, ⟨fun ht => hs.1 ht, fun ht => hs.2 ht⟩⟩
  rw [← hz]
  have hmul := remove_card_multiset hr
  simp only [zonesFull, zones, leadZone, hlead, hmul,
    ← Multiset.singleton_add]
  abel

/-- Removing a card from the opponent's hand and placing it as the
current lead preserves the invariant, provided no lead was pending. -/
theorem place_lead_inv_opponent (g1 : Game) (side : By) (card : Card)
    (hrem : List Card) (h1 : Inv g1) (hlead : g1.current_lead = none)
    (hr : remove_card g1.opponent_hand card = some hrem) :
    Inv { g1 with
          opponent_hand := hrem
          current_lead := some card
          current_lead_by := some side } := by
  rcases h1 with ⟨hz, hs⟩
  refine ⟨?_, ⟨fun ht => hs.1 ht, fun ht => hs.2 ht⟩⟩
  rw [← hz]
  have hmul := remove_card_multiset hr
  simp only [zonesFull, zones, leadZone, hlead, hmul,
    ← Multiset.singleton_add]
  abel

/-- `leader_play` preserves the invariant in every outcome. -/
theorem leader_play_inv (g : Game) (side : By) (card : Card) (flag : Bool)
    (t : AnnounceType) (s : Option Suit) (shown : Bool) (h : Inv g) :
    Inv (leader_play g side card flag t s shown).1 := by
  simp only [leader_play]
  split
  · exact h
  next hover =>
  split
  · exact h
  next hlead =>
  have hleadnone : g.current_lead = none := not_ne_iff.mp hlead
  split
  · exact h
  split
  · exact h
  split
  next g1 e heq =>
    have hfst : (apply_announce g side t s shown
        (if side = By.player then g.player_hand else g.opponent_hand)).1 = g1 := by
      rw [heq]
    have := apply_announce_inv_of g side t s shown
      (if side = By.player then g.player_hand else g.opponent_hand) h
    rw [hfst] at this
    exact this
  next g1 heq =>
    have hfst : (apply_announce g side t s shown
        (if side = By.player then g.player_hand else g.opponent_hand)).1 = g1 := by
      rw [heq]
    have h1 : Inv g1 := by
      have := apply_announce_inv_of g side t s shown
        (if side = By.player then g.player_hand else g.opponent_hand) h
      rw [hfst] at this
      exact this
    have hframe := apply_announce_frame g side t s shown
      (if side = By.player then g.player_hand else g.opponent_hand)
    rw [hfst] at hframe
    split
    · exact h1
    split
    · exact h1
    next hrem hr =>
      have hleadg1 : g1.current_lead = none :=
        hframe.2.2.2.2.2.2.2.2.1.trans hleadnone
      cases side with
      | player =>
        rw [if_pos rfl] at hr
        rw [if_pos rfl]
        exact place_lead_inv_player g1 By.player card hrem h1 hleadg1 hr
      | opponent =>
        have hne : ¬ (By.opponent = By.player) := by decide
        rw [if_neg hne] at hr
        rw [if_neg hne]
        exact place_lead_inv_opponent g1 By.opponent card hrem h1 hleadg1 hr

/-- `maybe_finish_game` preserves the invariant. -/
theorem maybe_finish_inv (g : Game) (h : Inv g) : Inv (maybe_finish_game g) := by
  have hf := maybe_finish_frame g
  rcases h with ⟨hz, hs⟩
  refine ⟨?_, ?_⟩
  · rw [zonesFull_eq_of_fields hf.1 hf.2.1 hf.2.2.1 hf.2.2.2.1 hf.2.2.2.2.1
      hf.2.2.2.2.2.2.1 hf.2.2.2.2.2.2.2.1 hf.2.2.2.2.2.2.2.2.1]
    exact hz
  · exact (stockInv_iff_of_fields hf.2.2.1 hf.2.2.2.1).mpr hs

/-- Removing a card from the player's hand costs the zones exactly that
card. -/
theorem hand_remove_zones_player (g1 : Game) (card : Card)
    (hrem : List Card) (hr : remove_card g1.player_hand card = some hrem) :
    zonesFull { g1 with player_hand := hrem } + {card} = zonesFull g1 := by
  have hmul := remove_card_multiset hr
  simp only [zonesFull, zones, leadZone, hmul, ← Multiset.singleton_add]
  abel

/-- Removing a card from the opponent's hand costs the zones exactly
that card. -/
theorem hand_remove_zones_opponent (g1 : Game) (card : Card)
    (hrem : List Card) (hr : remove_card g1.opponent_hand card = some hrem) :
    zonesFull { g1 with opponent_hand := hrem } + {card} = zonesFull g1 := by
  have hmul := remove_card_multiset hr
  simp only [zonesFull, zones, leadZone, hmul, ← Multiset.singleton_add]
  abel

/-- `follower_play` preserves the invariant in every outcome. -/
theorem follower_play_inv (g : Game) (side : By) (card : Card)
    (t : AnnounceType) (s : Option Suit) (shown : Bool) (h : Inv g) :
    Inv (follower_play g side card t s shown).1 := by
  simp only [follower_play]
  split
  · exact h
  next hover =>
  split
  · exact h
  next hnl =>
  push_neg at hnl
  split
  · exact h
  next hlby =>
  by_cases hleg : talon_not_empty g = false ∧
      ¬ ((compute_legal_moves (if side = By.player then g.player_hand
          else g.opponent_hand) g.current_lead g.trump_suit false).any
        (fun c => card_eq c card)) = true
  · rw [if_pos hleg]
    exact h
  rw [if_neg hleg]
  split
  next g1 e heq =>
    have hfst : (apply_announce g side t s shown
        (if side = By.player then g.player_hand else g.opponent_hand)).1 = g1 := by
      rw [heq]
    have := apply_announce_inv_of g side t s shown
      (if side = By.player then g.player_hand else g.opponent_hand) h
    rw [hfst] at this
    exact this
  next g1 heq =>
    have hfst : (apply_announce g side t s shown
        (if side = By.player then g.player_hand else g.opponent_hand)).1 = g1 := by
      rw [heq]
    have h1 : Inv g1 := by
      have := apply_announce_inv_of g side t s shown
        (if side = By.player then g.player_hand else g.opponent_hand) h
      rw [hfst] at this
      exact this
    have hframe := apply_announce_frame g side t s shown
      (if side = By.player then g.player_hand else g.opponent_hand)
    rw [hfst] at hframe
    split
    · exact h1
    split
    · exact h1
    next hrem hr =>
      cases side with
      | player =>
        rw [if_pos rfl] at hr
        rw [if_pos rfl]
        split
        next lb lc hlb hlc =>
          have hlc2 : ({ g1 with player_hand := hrem } : Game).current_lead =
              some lc := hlc
          have hs2 : StockInv { g1 with player_hand := hrem } :=
            ⟨fun ht => h1.2.1 ht, fun ht => h1.2.2 ht⟩
          have hres := resolve_trick_inv { g1 with player_hand := hrem }
            lb lc By.player card hlc2 hs2
          refine ⟨?_, hres.2⟩
          rw [hres.1, hand_remove_zones_player g1 card hrem hr]
          exact h1.1
        next hfail =>
          exfalso
          obtain ⟨lb, hlb⟩ := Option.ne_none_iff_exists'.mp hnl.2
          obtain ⟨lc, hlc⟩ := Option.ne_none_iff_exists'.mp hnl.1
          exact hfail lb lc (hframe.2.2.2.2.2.2.2.2.2.1.trans hlb)
            (hframe.2.2.2.2.2.2.2.2.1.trans hlc)
      | opponent =>
        have hne : ¬ (By.opponent = By.player) := by decide
        rw [if_neg hne] at hr
        rw [if_neg hne]
        split
        next lb lc hlb hlc =>
          have hlc2 : ({ g1 with opponent_hand := hrem } : Game).current_lead =
              some lc := hlc
          have hs2 : StockInv { g1 with opponent_hand := hrem } :=
            ⟨fun ht => h1.2.1 ht, fun ht => h1.2.2 ht⟩
          have hres := resolve_trick_inv { g1 with opponent_hand := hrem }
            lb lc By.opponent card hlc2 hs2
          refine ⟨?_, hres.2⟩
          rw [hres.1, hand_remove_zones_opponent g1 card hrem hr]
          exact h1.1
        next hfail =>
          exfalso
          obtain ⟨lb, hlb⟩ := Option.ne_none_iff_exists'.mp hnl.2
          obtain ⟨lc, hlc⟩ := Option.ne_none_iff_exists'.mp hnl.1
          exact hfail lb lc (hframe.2.2.2.2.2.2.2.2.2.1.trans hlb)
            (hframe.2.2.2.2.2.2.2.2.1.trans hlc)

/-- The trump-seven swap conserves the cards when the turnup is still
reserved. -/
theorem exchange_zones (g : Game) (i : Nat) (hi : i < g.player_hand.length)
    (htis : g.turnup_in_stock = true) :
    zonesFull { g with
        player_hand := g.player_hand.set i g.trump_card
        trump_card := g.player_hand.getD i default
        exchange7_done := true } = zonesFull g := by
  have key := set_multiset g.player_hand i g.trump_card hi
  simp only [zonesFull, zones, leadZone, htis, eq_self_iff_true, if_true]
  ext a
  have hkey := congrArg (Multiset.count a) key
  simp only [Multiset.count_add, Multiset.count_singleton] at hkey ⊢
  split_ifs at hkey ⊢ <;> omega

/-- `exchange7` preserves the invariant in every outcome. -/
theorem exchange7_inv (g : Game) (h : Inv g) : Inv (exchange7 g).1 := by
  simp only [exchange7]
  split
  · exact h
  split
  · exact h
  split
  · exact h
  next htal =>
  split
  · exact h
  next i hfind =>
    rcases find_seven_spec hfind with ⟨hilen, _⟩
    have htis : g.turnup_in_stock = true := by
      rcases hb : g.turnup_in_stock
      · exfalso
        have := h.2.2 hb
        rw [talon_not_empty, this] at htal
        simp at htal
      · rfl
    refine ⟨?_, ⟨fun _ => h.2.1 htis, by simp [htis]⟩⟩
    rw [exchange_zones g i hilen htis]
    exact h.1

/-- The invariant holds for a freshly dealt game. -/
theorem new_game_inv (deck : List Card) (h : deck.Perm new_deck) :
    Inv (new_game deck) := by
  have hlen : deck.length = 32 := by
    rw [h.length_eq]
    rfl
  refine ⟨?_, ?_, ?_⟩
  · have h10 : deck.take 10 ++ deck.drop 10 = deck := List.take_append_drop 10 deck
    have hd10 : deck.drop 10 = deck.getD 10 default :: deck.drop 11 := by
      rw [List.getD_eq_getElem deck default (by omega)]
      exact List.drop_eq_getElem_cons (by omega)
    have htake : deck.take 10 = deck.take 5 ++ (deck.drop 5).take 5 := by
      have : (10 : Nat) = 5 + 5 := rfl
      rw [this, List.take_add]
    have hdecomp : (deck : Multiset Card) = ↑(deck.take 5) +
        ↑((deck.drop 5).take 5) + {deck.getD 10 default} + ↑(deck.drop 11) := by
      conv_lhs => rw [← h10, htake, hd10]
      simp only [← Multiset.coe_add, ← Multiset.cons_coe,
        ← Multiset.singleton_add]
      abel
    have hdm : deckM = (deck : Multiset Card) :=
      (Multiset.coe_eq_coe.mpr h).symm
    rw [hdm, hdecomp]
    simp only [zonesFull, zones, leadZone, new_game]
    ext a
    simp [Multiset.count_add, Multiset.count_singleton]
    split_ifs <;> omega
  · intro _
    simp only [new_game, List.length_drop, hlen]
  · intro hco
    simp only [new_game] at hco
    cases hco

/-- Every reachable game state satisfies the conservation and stock
invariants. -/
theorem reachable_inv (g : Game) (h : Reachable g) : Inv g := by
  induction h with
  | init deck hperm => exact new_game_inv deck hperm
  | step g g' hg hs ih =>
    cases hs with
    | lead side card flag t s shown =>
        exact leader_play_inv _ side card flag t s shown ih
    | follow side card t s shown =>
        exact follower_play_inv _ side card t s shown ih
    | exchange => exact exchange7_inv _ ih
    | finish => exact maybe_finish_inv _ ih


/-! ### A concrete playable deck and game trace

`trace_deck` is one shuffle of the deck; the trace below plays twelve
full tricks from it (exhausting the stock) and then a thirteenth lead,
entirely through the engine operations. -/

/-- A permutation of the deck chosen so that the trace below is legal:
player hand, opponent hand, turnup (hearts are trump), then the talon. -/
def trace_deck : List Card :=
  [⟨Suit.H, Rank.R7⟩, ⟨Suit.H, Rank.R8⟩, ⟨Suit.H, Rank.R10⟩,
   ⟨Suit.H, Rank.J⟩, ⟨Suit.H, Rank.Q⟩,
   ⟨Suit.S, Rank.R10⟩, ⟨Suit.S, Rank.K⟩, ⟨Suit.S, Rank.Q⟩,
   ⟨Suit.S, Rank.J⟩, ⟨Suit.S, Rank.R9⟩,
   ⟨Suit.H, Rank.R9⟩,
   ⟨Suit.H, Rank.K⟩, ⟨Suit.S, Rank.R8⟩, ⟨Suit.D, Rank.J⟩,
   ⟨Suit.S, Rank.R7⟩, ⟨Suit.D, Rank.R9⟩, ⟨Suit.C, Rank.A⟩,
   ⟨Suit.D, Rank.R8⟩, ⟨Suit.C, Rank.R10⟩, ⟨Suit.D, Rank.R7⟩,
   ⟨Suit.C, Rank.K⟩, ⟨Suit.C, Rank.J⟩, ⟨Suit.D, Rank.A⟩,
   ⟨Suit.H, Rank.A⟩, ⟨Suit.D, Rank.R10⟩, ⟨Suit.S, Rank.A⟩,
   ⟨Suit.D, Rank.K⟩, ⟨Suit.C, Rank.R9⟩, ⟨Suit.D, Rank.Q⟩,
   ⟨Suit.C, Rank.R8⟩, ⟨Suit.C, Rank.Q⟩, ⟨Suit.C, Rank.R7⟩]

/-- The player leads a card with no announce. -/
def trace_lead (g : Game) (c : Card) : Game :=
  (leader_play g By.player c true AnnounceType.noneT none false).1

/-- The opponent follows with a card, no announce. -/
def trace_follow (g : Game) (c : Card) : Game :=
  (follower_play g By.opponent c AnnounceType.noneT none false).1

/-- One full trick: player leads `lc`, opponent answers `fc`. -/
def trace_trick (g : Game) (lc fc : Card) : Game :=
  trace_follow (trace_lead g lc) fc

/-- Twelve played tricks (the stock is exhausted after the eleventh)
followed by the player leading the spade ace into an opponent hand
holding neither spades nor trumps. -/
def trace_state : Game :=
  trace_lead
    (trace_trick (trace_trick (trace_trick (trace_trick (trace_trick
      (trace_trick (trace_trick (trace_trick (trace_trick (trace_trick
      (trace_trick (trace_trick (new_game trace_deck)
        ⟨Suit.H, Rank.R7⟩ ⟨Suit.S, Rank.R10⟩)
        ⟨Suit.H, Rank.R8⟩ ⟨Suit.S, Rank.K⟩)
        ⟨Suit.H, Rank.R10⟩ ⟨Suit.S, Rank.Q⟩)
        ⟨Suit.H, Rank.J⟩ ⟨Suit.S, Rank.J⟩)
        ⟨Suit.H, Rank.Q⟩ ⟨Suit.S, Rank.R9⟩)
        ⟨Suit.H, Rank.K⟩ ⟨Suit.S, Rank.R8⟩)
        ⟨Suit.D, Rank.J⟩ ⟨Suit.S, Rank.R7⟩)
        ⟨Suit.D, Rank.R9⟩ ⟨Suit.C, Rank.A⟩)
        ⟨Suit.D, Rank.R8⟩ ⟨Suit.C, Rank.R10⟩)
        ⟨Suit.D, Rank.R7⟩ ⟨Suit.C, Rank.K⟩)
        ⟨Suit.C, Rank.J⟩ ⟨Suit.D, Rank.A⟩)
        ⟨Suit.H, Rank.A⟩ ⟨Suit.H, Rank.R9⟩)
    ⟨Suit.S, Rank.A⟩

/-- The state right after the very first lead of the trace game: a
trick is in progress. -/
def lead_state : Game := trace_lead (new_game trace_deck) ⟨Suit.H, Rank.R7⟩

theorem reachable_trace_lead {g : Game} (h : Reachable g) (c : Card) :
    Reachable (trace_lead g c) :=
  Reachable.step g _ h (Step.lead g By.player c true AnnounceType.noneT none false)

theorem reachable_trace_follow {g : Game} (h : Reachable g) (c : Card) :
    Reachable (trace_follow g c) :=
  Reachable.step g _ h (Step.follow g By.opponent c AnnounceType.noneT none false)

theorem reachable_trace_trick {g : Game} (h : Reachable g) (lc fc : Card) :
    Reachable (trace_trick g lc fc) :=
  reachable_trace_follow (reachable_trace_lead h lc) fc

theorem trace_deck_perm : trace_deck.Perm new_deck := by decide

theorem reachable_trace_state : Reachable trace_state :=
  reachable_trace_lead
    (reachable_trace_trick (reachable_trace_trick (reachable_trace_trick
      (reachable_trace_trick (reachable_trace_trick (reachable_trace_trick
      (reachable_trace_trick (reachable_trace_trick (reachable_trace_trick
      (reachable_trace_trick (reachable_trace_trick (reachable_trace_trick
      (Reachable.init trace_deck trace_deck_perm)
        ⟨Suit.H, Rank.R7⟩ ⟨Suit.S, Rank.R10⟩)
        ⟨Suit.H, Rank.R8⟩ ⟨Suit.S, Rank.K⟩)
        ⟨Suit.H, Rank.R10⟩ ⟨Suit.S, Rank.Q⟩)
        ⟨Suit.H, Rank.J⟩ ⟨Suit.S, Rank.J⟩)
        ⟨Suit.H, Rank.Q⟩ ⟨Suit.S, Rank.R9⟩)
        ⟨Suit.H, Rank.K⟩ ⟨Suit.S, Rank.R8⟩)
        ⟨Suit.D, Rank.J⟩ ⟨Suit.S, Rank.R7⟩)
        ⟨Suit.D, Rank.R9⟩ ⟨Suit.C, Rank.A⟩)
        ⟨Suit.D, Rank.R8⟩ ⟨Suit.C, Rank.R10⟩)
        ⟨Suit.D, Rank.R7⟩ ⟨Suit.C, Rank.K⟩)
        ⟨Suit.C, Rank.J⟩ ⟨Suit.D, Rank.A⟩)
        ⟨Suit.H, Rank.A⟩ ⟨Suit.H, Rank.R9⟩)
    ⟨Suit.S, Rank.A⟩

theorem reachable_lead_state : Reachable lead_state :=
  reachable_trace_lead (Reachable.init trace_deck trace_deck_perm)
    ⟨Suit.H, Rank.R7⟩

/-- The fully dealt, unshuffled reference game. -/
def freshGame : Game := new_game new_deck

/-- The stock is exhausted: talon empty and turnup claimed. -/
def stock_exhausted (g : Game) : Prop :=
  g.talon = [] ∧ g.turnup_in_stock = false

instance (g : Game) : Decidable (stock_exhausted g) := by
  unfold stock_exhausted
  infer_instance

/-! ### Claim theorems -/

/-- C1: with trump H, lead (H,Q) and a follower hand of (H,K) and (H,7)
after stock exhaustion, the engine's legal-move set is the whole
lead-suit holding {(H,K),(H,7)}, although the strictly stronger trump
(H,K) exists: the overtrump restriction claimed by the specification is
never applied (the overtrump branch of `compute_legal_moves` is
unreachable for a trump lead, since a trump lead is always caught by
the follow-suit branch first). -/
theorem c1_trump_lead_overtrump_not_enforced :
    compute_legal_moves [⟨Suit.H, Rank.K⟩, ⟨Suit.H, Rank.R7⟩]
        (some ⟨Suit.H, Rank.Q⟩) Suit.H false =
      [⟨Suit.H, Rank.K⟩, ⟨Suit.H, Rank.R7⟩] ∧
    overtrumps [⟨Suit.H, Rank.K⟩, ⟨Suit.H, Rank.R7⟩] Suit.H
        ⟨Suit.H, Rank.Q⟩ = [⟨Suit.H, Rank.K⟩] := by
  decide

/-- C2: `leader_play` is not all-or-nothing. In the freshly dealt
unshuffled game the player holds the hearts K and Q (a valid mariage
announce) but not the spade 7; leading the spade 7 with the shown
mariage announce raises "Card not in hand", yet the announce points and
the declared-announce key committed before the failed hand-membership
check persist in the state the caller keeps. -/
theorem c2_failed_leader_play_keeps_announce :
    (leader_play freshGame By.player ⟨Suit.S, Rank.R7⟩ true
      AnnounceType.mariage (some Suit.H) true).2 = some "Card not in hand" ∧
    (leader_play freshGame By.player ⟨Suit.S, Rank.R7⟩ true
      AnnounceType.mariage (some Suit.H) true).1.player_ann_points = 20 ∧
    (leader_play freshGame By.player ⟨Suit.S, Rank.R7⟩ true
      AnnounceType.mariage (some Suit.H) true).1.announced_player =
      ["mariage:H"] ∧
    (leader_play freshGame By.player ⟨Suit.S, Rank.R7⟩ true
      AnnounceType.mariage (some Suit.H) true).1.last_announce =
      some ⟨By.player, AnnounceType.mariage, some Suit.H⟩ ∧
    freshGame.player_ann_points = 0 ∧
    freshGame.announced_player = [] ∧
    freshGame.last_announce = none := by
  decide

/-- C3 counterexample: a reachable game (the twelve-trick trace) whose
stock is exhausted, whose pending lead is the non-trump (S,A), and
whose follower legally answers with (C,Q) — a card on which
`trick_winner` takes the different-non-trump-suits fallback branch; the
engine accepts the play. The branch is therefore reachable with a legal
follower card, contrary to the claim. -/
theorem c3_fallback_branch_reached :
    Reachable trace_state ∧
    stock_exhausted trace_state ∧
    trace_state.current_lead = some ⟨Suit.S, Rank.A⟩ ∧
    (⟨Suit.C, Rank.Q⟩ : Card) ∈ compute_legal_moves
      trace_state.opponent_hand trace_state.current_lead
      trace_state.trump_suit false ∧
    fallback_branch ⟨Suit.S, Rank.A⟩ ⟨Suit.C, Rank.Q⟩
      trace_state.trump_suit = true ∧
    trick_winner ⟨Suit.S, Rank.A⟩ ⟨Suit.C, Rank.Q⟩ trace_state.trump_suit
      (talon_not_empty trace_state) = 0 ∧
    (follower_play trace_state By.opponent ⟨Suit.C, Rank.Q⟩
      AnnounceType.noneT none false).2 = none :=
  ⟨reachable_trace_state, by decide, by decide, by decide, by decide,
    by decide, by decide⟩

/-- A member of `trumps` has the trump suit. -/
theorem mem_trumps_suit {hand : List Card} {ts : Suit} {c : Card}
    (h : c ∈ trumps hand ts) : c.suit = ts := by
  simp only [trumps] at h
  have := List.mem_filter.mp h
  simpa using this.2

/-- A member of `overtrumps` has the trump suit. -/
theorem mem_overtrumps_suit {hand : List Card} {ts : Suit} {lc : Card}
    {c : Card} (h : c ∈ overtrumps hand ts lc) : c.suit = ts := by
  simp only [overtrumps] at h
  have := List.mem_filter.mp h
  have h2 := this.2
  simp only [Bool.and_eq_true, beq_iff_eq] at h2
  exact h2.1

/-- C3 amended: once the stock is exhausted, a legal follower card hits
the different-non-trump-suits fallback branch of `trick_winner` exactly
in the forced-discard situation — the follower's hand then holds
neither the lead suit nor any trump; whenever the hand holds the lead
suit or a trump, the branch is unreachable. -/
theorem c3_fallback_only_on_forced_discard (hand : List Card)
    (lead c : Card) (ts : Suit)
    (hmem : c ∈ compute_legal_moves hand (some lead) ts false)
    (hfb : fallback_branch lead c ts = true) :
    has_suit hand lead.suit = false ∧ has_suit hand ts = false := by
  rcases hfb2 : has_suit hand lead.suit with _ | _
  · rcases hfb3 : has_suit hand ts with _ | _
    · exact ⟨rfl, rfl⟩
    · exfalso
      have hcs : c.suit = ts := by
        simp only [compute_legal_moves] at hmem
        rw [if_neg (by simp : ¬ (false = true))] at hmem
        rw [if_neg (by simp [hfb2])] at hmem
        have ht : trumps hand ts ≠ [] := by
          rw [Ne, trumps_eq_nil_iff]
          simp [hfb3]
        rw [if_pos ht] at hmem
        split at hmem
        · split at hmem
          · exact mem_overtrumps_suit hmem
          · exact mem_trumps_suit hmem
        · exact mem_trumps_suit hmem
      simp only [fallback_branch, Bool.and_eq_true, Bool.not_eq_true'] at hfb
      rw [hcs] at hfb
      simp at hfb
  · exfalso
    have hcs : c.suit = lead.suit := by
      simp only [compute_legal_moves] at hmem
      rw [if_neg (by simp : ¬ (false = true))] at hmem
      rw [if_pos hfb2] at hmem
      have := List.mem_filter.mp hmem
      simpa using this.2
    simp only [fallback_branch, Bool.and_eq_true, Bool.not_eq_true'] at hfb
    rw [hcs] at hfb
    simp at hfb

/-- C3 amended, witness: a bare (C,Q) hand discarding on a (S,A) lead
under trump H. -/
theorem c3_fallback_only_on_forced_discard_witness :
    has_suit [(⟨Suit.C, Rank.Q⟩ : Card)]
      (⟨Suit.S, Rank.A⟩ : Card).suit = false ∧
    has_suit [(⟨Suit.C, Rank.Q⟩ : Card)] Suit.H = false :=
  c3_fallback_only_on_forced_discard [⟨Suit.C, Rank.Q⟩] ⟨Suit.S, Rank.A⟩
    ⟨Suit.C, Rank.Q⟩ Suit.H (by decide) (by decide)

/-- C5 counterexample: immediately after the first lead of a freshly
dealt game (a reachable state) the union of the zones named by the
specification — hands, talon, unclaimed turnup, trick piles — is
missing the card sitting in the in-progress lead, so it is not the full
deck. -/
theorem c5_zones_without_lead_not_deck :
    Reachable lead_state ∧ zones lead_state ≠ deckM :=
  ⟨reachable_lead_state, by decide⟩

/-- C5 amended: in every reachable state the multiset union of the
zones *plus the in-progress lead card (when a trick is open)* is
exactly the 32-card deck. -/
theorem c5_conservation_with_lead (g : Game) (hr : Reachable g) :
    zonesFull g = deckM :=
  (reachable_inv g hr).1

/-- C5 amended, witness: the freshly dealt unshuffled game. -/
theorem c5_conservation_with_lead_witness :
    zonesFull (new_game new_deck) = deckM :=
  c5_conservation_with_lead (new_game new_deck)
    (Reachable.init new_deck (List.Perm.refl new_deck))

/-- `RANK_STRENGTH` is injective: the eight ranks have the eight
distinct strengths 0..7. -/
theorem rank_strength_injective (r r' : Rank)
    (h : RANK_STRENGTH r = RANK_STRENGTH r') : r = r' := by
  cases r <;> cases r' <;> simp_all [RANK_STRENGTH]

/-- C4: for every pair of distinct cards, any trump suit and either
talon flag, `trick_winner` awards the trick to the follower on a cut
(trump reply, non-trump lead), to the leader when the lead is trump and
the reply is not, and, on equal suits, to the side holding the
stronger card in the order A,10,K,Q,J,9,8,7 (smaller `RANK_STRENGTH` =
stronger). -/
theorem c4_trick_winner_cases (lead reply : Card) (ts : Suit) (flag : Bool)
    (hne : lead ≠ reply) :
    (reply.suit = ts ∧ lead.suit ≠ ts → trick_winner lead reply ts flag = 1) ∧
    (lead.suit = ts ∧ reply.suit ≠ ts → trick_winner lead reply ts flag = 0) ∧
    (lead.suit = reply.suit →
      ((trick_winner lead reply ts flag = 0 ↔
          RANK_STRENGTH lead.rank < RANK_STRENGTH reply.rank) ∧
        (trick_winner lead reply ts flag = 1 ↔
          RANK_STRENGTH reply.rank < RANK_STRENGTH lead.rank))) := by
  refine ⟨?_, ?_, ?_⟩
  · rintro ⟨h1, h2⟩
    simp [trick_winner, h1, h2]
  · rintro ⟨h1, h2⟩
    simp [trick_winner, h1, h2]
  · intro hsuit
    have hrne : lead.rank ≠ reply.rank := by
      intro hr
      apply hne
      cases lead
      cases reply
      simp_all
    have hsne : RANK_STRENGTH lead.rank ≠ RANK_STRENGTH reply.rank :=
      fun hs => hrne (rank_strength_injective _ _ hs)
    unfold trick_winner
    simp only [hsuit]
    by_cases hlt : RANK_STRENGTH lead.rank < RANK_STRENGTH reply.rank <;>
      simp [hlt] <;> omega

/-- C4 witness: trump H, lead (S,A) against reply (S,K): the leader
wins the same-suit comparison. -/
theorem c4_trick_winner_cases_witness :
    trick_winner ⟨Suit.S, Rank.A⟩ ⟨Suit.S, Rank.K⟩ Suit.H true = 0 :=
  ((c4_trick_winner_cases ⟨Suit.S, Rank.A⟩ ⟨Suit.S, Rank.K⟩ Suit.H true
    (by decide)).2.2 rfl).1.mpr (by decide)

/-- `find_seven` fails exactly when no card of the hand is the trump
seven. -/
theorem find_seven_none_iff (l : List Card) (ts : Suit) :
    find_seven l ts = none ↔
      ∀ c ∈ l, is_seven_of_trump c ts = false := by
  induction l with
  | nil => simp [find_seven]
  | cons a rest ih =>
    by_cases ha : is_seven_of_trump a ts = true
    · simp [find_seven, ha]
    · have ha' : is_seven_of_trump a ts = false := by
        simpa using ha
      simp [find_seven, ha, ha', ih]

/-- C6: under the stock invariant of reachable games, `exchange7` fails
exactly when the game is over, the exchange was already used, the stock
is exhausted, or the player does not hold the trump seven; on success
it swaps the trump seven out of the hand for the reserved turnup card,
marks the exchange used, and a second call then fails. -/
theorem c6_exchange7_spec (g : Game) (hr : Reachable g) :
    ((exchange7 g).2.isSome = true ↔
      (g.is_over = true ∨ g.exchange7_done = true ∨ stock_exhausted g ∨
        ∀ c ∈ g.player_hand, is_seven_of_trump c g.trump_suit = false)) ∧
    ((exchange7 g).2 = none →
      (exchange7 g).1.exchange7_done = true ∧
      is_seven_of_trump (exchange7 g).1.trump_card g.trump_suit = true ∧
      ((exchange7 g).1.player_hand : Multiset Card) +
          {(exchange7 g).1.trump_card} =
        (g.player_hand : Multiset Card) + {g.trump_card} ∧
      (exchange7 (exchange7 g).1).2.isSome = true) := by
  have hinv := reachable_inv g hr
  have hexh : talon_not_empty g = false ↔ stock_exhausted g := by
    constructor
    · intro hf
      have htal : g.talon = [] := by
        rw [talon_not_empty, decide_eq_false_iff_not] at hf
        simpa using hf
      refine ⟨htal, ?_⟩
      rcases hb : g.turnup_in_stock
      · rfl
      · have := hinv.2.1 hb
        rw [htal] at this
        simp at this
    · rintro ⟨h1, _⟩
      rw [talon_not_empty, h1]
      simp
  unfold exchange7
  by_cases hio : g.is_over = true
  · rw [if_pos hio]
    refine ⟨⟨fun _ => Or.inl hio, fun _ => rfl⟩, ?_⟩
    intro hc
    cases hc
  rw [if_neg hio]
  by_cases hdone : g.exchange7_done = true
  · rw [if_pos hdone]
    refine ⟨⟨fun _ => Or.inr (Or.inl hdone), fun _ => rfl⟩, ?_⟩
    intro hc
    cases hc
  rw [if_neg hdone]
  by_cases htal : talon_not_empty g = false
  · rw [if_pos htal]
    refine ⟨⟨fun _ => Or.inr (Or.inr (Or.inl (hexh.mp htal))),
      fun _ => rfl⟩, ?_⟩
    intro hc
    cases hc
  rw [if_neg htal]
  rcases hfind : find_seven g.player_hand g.trump_suit with _ | i
  · refine ⟨⟨fun _ => Or.inr (Or.inr (Or.inr
      ((find_seven_none_iff _ _).mp hfind))), fun _ => rfl⟩, ?_⟩
    intro hc
    cases hc
  · rcases find_seven_spec hfind with ⟨hilen, hseven⟩
    constructor
    · simp only [Option.isSome_none]
      constructor
      · intro hc
        cases hc
      · rintro (hc | hc | hc | hc)
        · exact absurd hc hio
        · exact absurd hc hdone
        · exact absurd (hexh.mpr hc) htal
        · have := (find_seven_none_iff g.player_hand g.trump_suit).mpr hc
          rw [hfind] at this
          cases this
    · intro _
      refine ⟨rfl, hseven, ?_, ?_⟩
      · exact set_multiset g.player_hand i g.trump_card hilen
      · simp [exchange7, hio]

/-- C6 witness: the freshly dealt unshuffled game (trump is diamonds,
the player holds only hearts, so the exchange fails for want of the
trump seven). -/
theorem c6_exchange7_spec_witness :
    (exchange7 freshGame).2.isSome = true :=
  ((c6_exchange7_spec freshGame
    (Reachable.init new_deck (List.Perm.refl new_deck))).1).mpr
    (Or.inr (Or.inr (Or.inr (by decide))))

/-- C7: the legal-move set of a non-empty hand is never empty, for any
lead (or none), trump suit and talon flag. -/
theorem c7_legal_moves_nonempty (hand : List Card) (lead : Option Card)
    (ts : Suit) (flag : Bool) (h : hand ≠ []) :
    compute_legal_moves hand lead ts flag ≠ [] := by
  cases lead with
  | none => simpa [compute_legal_moves] using h
  | some lc =>
    simp only [compute_legal_moves]
    split
    · exact h
    split
    next hsuit =>
      rw [has_suit, List.any_eq_true] at hsuit
      rcases hsuit with ⟨c, hc, hcs⟩
      intro hemp
      have hmem : c ∈ hand.filter (fun c => c.suit == lc.suit) :=
        List.mem_filter.mpr ⟨hc, hcs⟩
      rw [hemp] at hmem
      exact absurd hmem (List.not_mem_nil c)
    next =>
      split
      next ht =>
        split
        · split
          next hot => exact hot
          next => exact ht
        · exact ht
      next => exact h

/-- C7 witness: a one-card hand facing a lead with an empty talon. -/
theorem c7_legal_moves_nonempty_witness :
    compute_legal_moves [(⟨Suit.C, Rank.Q⟩ : Card)]
      (some ⟨Suit.S, Rank.A⟩) Suit.H false ≠ [] :=
  c7_legal_moves_nonempty [⟨Suit.C, Rank.Q⟩] (some ⟨Suit.S, Rank.A⟩)
    Suit.H false (by decide)

/-- C8: the running score of each side is exactly its trick-pile card
points plus its announce points, independent of the recorded last-trick
winner (so it never contains the dix de der); the final score adds the
10-point bonus exactly to the side recorded as winner of the most
recent trick, a record `resolve_trick` maintains as the winner of the
trick it just resolved. -/
theorem c8_running_and_final_scores :
    ∀ g : Game,
      (scores_so_far g).player.total =
        compute_cards_points g.player_tricks + g.player_ann_points ∧
      (scores_so_far g).opponent.total =
        compute_cards_points g.opponent_tricks + g.opponent_ann_points ∧
      (∀ w, scores_so_far { g with last_trick_winner := w } =
        scores_so_far g) ∧
      (final_scores g).player.total = (scores_so_far g).player.total +
        (if g.last_trick_winner = some By.player then 10 else 0) ∧
      (final_scores g).opponent.total = (scores_so_far g).opponent.total +
        (if g.last_trick_winner = some By.opponent then 10 else 0) ∧
      (final_scores g).player.dix_de_der =
        (if g.last_trick_winner = some By.player then 10 else 0) ∧
      (final_scores g).opponent.dix_de_der =
        (if g.last_trick_winner = some By.opponent then 10 else 0) ∧
      (∀ lb lc fb fc, (resolve_trick g lb lc fb fc).last_trick_winner =
        some (if trick_winner lc fc g.trump_suit (talon_not_empty g) = 0
          then lb else fb)) := by
  intro g
  refine ⟨rfl, rfl, fun w => rfl, rfl, rfl, rfl, rfl, ?_⟩
  intro lb lc fb fc
  exact resolve_trick_last_winner g lb lc fb fc

/-- C9: a shown chouine announce, not previously declared by that side
and validated against a pre-play snapshot holding A,10,K,Q,J of one
suit, succeeds, immediately ends the game with the declaring side as
winner whatever the rest of the state, and adds no announce points to
either side. -/
theorem c9_chouine_ends_game (g : Game) (side : By) (s : Suit)
    (snap : List Card) (h1 : has_chouine snap s = true)
    (h2 : announce_key AnnounceType.chouine (some s) ∉
      (if side = By.player then g.announced_player
        else g.announced_opponent)) :
    (apply_announce g side AnnounceType.chouine (some s) true snap).2 =
      none ∧
    (apply_announce g side AnnounceType.chouine (some s) true snap).1.is_over
      = true ∧
    (apply_announce g side AnnounceType.chouine (some s) true snap).1.winner
      = some side.toGWinner ∧
    (apply_announce g side AnnounceType.chouine (some s) true
      snap).1.player_ann_points = g.player_ann_points ∧
    (apply_announce g side AnnounceType.chouine (some s) true
      snap).1.opponent_ann_points = g.opponent_ann_points := by
  have hval : validate_announce snap AnnounceType.chouine (some s) = true := by
    simpa [validate_announce] using h1
  unfold apply_announce
  rw [if_neg (by decide : ¬ (AnnounceType.chouine = AnnounceType.noneT))]
  rw [if_neg (by simp : ¬ ((!true) = true))]
  rw [if_neg (by simp [hval])]
  rw [if_neg h2]
  rw [if_pos rfl]
  cases side <;> simp

/-- C9 witness: the player of the freshly dealt unshuffled game holds
A,10,K,Q,J of hearts; the shown chouine announce ends the game with the
player as winner and leaves both announce-point counters at zero. -/
theorem c9_chouine_ends_game_witness :
    (apply_announce freshGame By.player AnnounceType.chouine
      (some Suit.H) true freshGame.player_hand).1.is_over = true ∧
    (apply_announce freshGame By.player AnnounceType.chouine
      (some Suit.H) true freshGame.player_hand).1.winner =
        some GWinner.player ∧
    (apply_announce freshGame By.player AnnounceType.chouine
      (some Suit.H) true freshGame.player_hand).1.player_ann_points =
        freshGame.player_ann_points :=
  ⟨(c9_chouine_ends_game freshGame By.player Suit.H freshGame.player_hand
      (by decide) (by decide)).2.1,
   (c9_chouine_ends_game freshGame By.player Suit.H freshGame.player_hand
      (by decide) (by decide)).2.2.1,
   (c9_chouine_ends_game freshGame By.player Suit.H freshGame.player_hand
      (by decide) (by decide)).2.2.2.1⟩

/-- C10: in every reachable state an empty talon means the turnup has
already left the stock, so the engine's talon-emptiness test
(`talon_not_empty` = false) coincides exactly with full stock
exhaustion. -/
theorem c10_talon_empty_iff_stock_exhausted (g : Game) (hr : Reachable g) :
    (g.talon = [] → g.turnup_in_stock = false) ∧
    (talon_not_empty g = false ↔ stock_exhausted g) := by
  have hinv := reachable_inv g hr
  have himp : g.talon = [] → g.turnup_in_stock = false := by
    intro htal
    rcases hb : g.turnup_in_stock
    · rfl
    · have := hinv.2.1 hb
      rw [htal] at this
      simp at this
  refine ⟨himp, ?_, ?_⟩
  · intro hf
    have htal : g.talon = [] := by
      rw [talon_not_empty, decide_eq_false_iff_not] at hf
      simpa using hf
    exact ⟨htal, himp htal⟩
  · rintro ⟨h1, _⟩
    rw [talon_not_empty, h1]
    simp

/-- C10 witness: the freshly dealt unshuffled game (21 talon cards,
turnup still reserved). -/
theorem c10_talon_empty_iff_stock_exhausted_witness :
    ((new_game new_deck).talon = [] →
      (new_game new_deck).turnup_in_stock = false) ∧
    (talon_not_empty (new_game new_deck) = false ↔
      stock_exhausted (new_game new_deck)) :=
  c10_talon_empty_iff_stock_exhausted (new_game new_deck)
    (Reachable.init new_deck (List.Perm.refl new_deck))

end Chouine
